import Mathlib

/- Shallow embedding of the influencer-roster web application (src/app.py).
   Python strings are modeled as lists of characters; the Python operations
   used by the code (strip, split with a maxsplit of 1, substring membership,
   replace) are modeled by the executable functions below.  Fallible Python
   code is modeled with Option / Except values, a failure value standing for
   a raised exception. -/

namespace App

abbrev Str := List Char

/-- Conversion from Lean string literals to the character-list model. -/
def str (s : String) : Str := s.data

/-- Python exceptions raised by the modeled code paths. -/
inductive PyErr where
  | indexError
  | valueError
  | overflowError
deriving DecidableEq, Repr

/-- Characters removed by Python str.strip() without arguments (the ASCII
    whitespace characters; further Unicode whitespace is not modeled). -/
def pyIsSpace (c : Char) : Bool :=
  c = ' ' || c = '\t' || c = '\n' || c = '\r' || c = '\x0b' || c = '\x0c'

/-- Python s.strip(): remove leading and trailing whitespace. -/
def pyStrip (s : Str) : Str :=
  ((s.dropWhile pyIsSpace).reverse.dropWhile pyIsSpace).reverse

/-- Python s.strip(c) with a one-character argument: remove leading and
    trailing copies of c. -/
def pyStripChar (c : Char) (s : Str) : Str :=
  ((s.dropWhile (fun x => x = c)).reverse.dropWhile (fun x => x = c)).reverse

/-- Boolean test that sep is a leading block of s. -/
def isPre : Str → Str → Bool
  | [], _ => true
  | _ :: _, [] => false
  | a :: x, b :: y => a = b && isPre x y

/-- Python s.split(sep, 1) restricted to the information the code uses: the part
    before and the part after the first occurrence of sep.  A none result models
    the case in which sep does not occur in s at all (Python then returns a
    one-element list, so asking for position 1 raises IndexError). -/
def pySplit1 (sep : Str) : Str → Option (Str × Str)
  | [] => if isPre sep [] then some ([], []) else none
  | c :: rest =>
    if isPre sep (c :: rest) then some ([], (c :: rest).drop sep.length)
    else (pySplit1 sep rest).map (fun p => (c :: p.1, p.2))

/-- Python sep in s (substring containment), phrased through pySplit1 so that the
    containment test and the split made under it agree by construction. -/
def pyIn (sep s : Str) : Bool := (pySplit1 sep s).isSome

/-- Python s.split(sep, 1)[0]: the text before the first occurrence of sep,
    or all of s when sep does not occur. -/
def pySplitFst (sep s : Str) : Str :=
  match pySplit1 sep s with
  | some p => p.1
  | none => s

deriving instance DecidableEq for Except

/-- Value of a digit string in base ten. -/
def digitsVal (s : Str) : Nat :=
  s.foldl (fun n c => 10 * n + (c.toNat - 48)) 0

/-- Result of Python float(): a finite value, an infinity, or a nan.  A finite
    value is modeled exactly as the scaled decimal num / 10 ^ pow10 (IEEE-754
    rounding, and overflow of finite decimal literals to infinity, are not
    modeled). -/
inductive PyFloat where
  | finite (num : Int) (pow10 : Nat)
  | inf
  | ninf
  | nan
deriving DecidableEq

/-- Exponent suffix of a Python float literal, applied to a mantissa given as
    the scaled decimal num / 10 ^ pow10. -/
def expPart (num : Int) (pow10 : Nat) (r : Str) : Option PyFloat :=
  let p : Bool × Str :=
    match r with
    | '+' :: r2 => (false, r2)
    | '-' :: r2 => (true, r2)
    | r2 => (false, r2)
  if !p.2.isEmpty && p.2.all Char.isDigit then
    let e := digitsVal p.2
    some (if p.1 then PyFloat.finite num (pow10 + e)
          else PyFloat.finite (num * ((10 : Int) ^ e)) pow10)
  else none

/-- Python float(s): none models a ValueError for a malformed literal.  Grammar:
    optional surrounding whitespace, optional sign, then inf / infinity / nan
    (case-insensitive) or a decimal literal digits[.digits][(e|E)[sign]digits]
    with at least one mantissa digit.  Digit-group underscores are not modeled. -/
def pyFloatParse (s : Str) : Option PyFloat :=
  let t := pyStrip s
  let sp : Bool × Str :=
    match t with
    | '+' :: r => (false, r)
    | '-' :: r => (true, r)
    | r => (false, r)
  let neg := sp.1
  let u := sp.2
  let low := u.map Char.toLower
  if low = str "inf" || low = str "infinity" then
    some (if neg then PyFloat.ninf else PyFloat.inf)
  else if low = str "nan" then some PyFloat.nan
  else
    let ip := u.takeWhile Char.isDigit
    let r1 := u.dropWhile Char.isDigit
    let fr : Str × Str :=
      match r1 with
      | '.' :: r => (r.takeWhile Char.isDigit, r.dropWhile Char.isDigit)
      | r => ([], r)
    let fp := fr.1
    if ip.isEmpty && fp.isEmpty then none
    else
      let num0 : Int := (digitsVal (ip ++ fp) : Int)
      let num : Int := if neg then -num0 else num0
      match fr.2 with
      | [] => some (PyFloat.finite num fp.length)
      | 'e' :: r3 => expPart num fp.length r3
      | 'E' :: r3 => expPart num fp.length r3
      | _ => none

/-- Python int(x) applied to the result of float(): truncation toward zero for
    finite values; int of an infinity raises OverflowError and int(nan) raises
    ValueError. -/
def floatToInt : PyFloat → Except PyErr Int
  | PyFloat.finite num pow10 => Except.ok (Int.tdiv num ((10 : Int) ^ pow10))
  | PyFloat.inf => Except.error PyErr.overflowError
  | PyFloat.ninf => Except.error PyErr.overflowError
  | PyFloat.nan => Except.error PyErr.valueError

/-- coerce_int (src/app.py lines 248-264) on a string input.  The body runs under
    a try/except that catches only ValueError and TypeError, so an OverflowError
    escaping from int(float(cleaned)) propagates to the caller; that uncaught
    exception is the error result here.  The replace(",", "") call is the comma
    filter, followed by strip(). -/
def coerce_int (value : Str) : Except PyErr (Option Int) :=
  if value = [] then Except.ok none
  else
    let cleaned := pyStrip (value.filter (fun c => c != ','))
    if cleaned = [] then Except.ok none
    else
      match pyFloatParse cleaned with
      | none => Except.ok none
      | some f =>
        match floatToInt f with
        | Except.ok n => Except.ok (some n)
        | Except.error PyErr.valueError => Except.ok none
        | Except.error e => Except.error e

/-- Python int(s) on a string: optional surrounding whitespace, optional sign,
    then decimal digits (digit-group underscores are not modeled); none models a
    ValueError. -/
def pyIntParse (s : Str) : Option Int :=
  let t := pyStrip s
  let sp : Bool × Str :=
    match t with
    | '+' :: r => (false, r)
    | '-' :: r => (true, r)
    | r => (false, r)
  if !sp.2.isEmpty && sp.2.all Char.isDigit then
    some (if sp.1 then -(digitsVal sp.2 : Int) else (digitsVal sp.2 : Int))
  else none

/-- DEFAULT_DISCOVER_LIMIT (src/app.py line 52). -/
def DEFAULT_DISCOVER_LIMIT : Int := 10

/-- Effective result limit computed by the discover route (src/app.py lines
    661-671): the limit request parameter is stripped; an empty or unparsable
    value falls back to the default; the result is clamped between 1 and 25. -/
def discover_limit (limitRaw : Str) : Int :=
  let limit := pyStrip limitRaw
  let limit_value : Int :=
    if limit = [] then DEFAULT_DISCOVER_LIMIT
    else
      match pyIntParse limit with
      | some n => n
      | none => DEFAULT_DISCOVER_LIMIT
  max 1 (min limit_value 25)

/-- Reserved first path segments rejected as usernames (src/app.py line 323). -/
def reservedSegments : List Str :=
  [str "p", str "reel", str "tv", str "stories", str "explore"]

/-- extract_instagram_username (src/app.py lines 313-325).  The Python code
    checks that the url contains "instagram.com" but then splits on
    "instagram.com/": when that second marker is absent, indexing position 1 of
    the split raises IndexError, modeled as the none result; every normally
    returned value is wrapped in some. -/
def extract_instagram_username (url : Str) : Option Str :=
  if url = [] then some []
  else if !(pyIn (str "instagram.com") url) then some []
  else
    match pySplit1 (str "instagram.com/") url with
    | none => none
    | some p =>
      let cleaned := pyStripChar '/' (pySplitFst (str "?") p.2)
      if cleaned = [] then some []
      else
        let firstSeg := pySplitFst (str "/") cleaned
        if firstSeg ∈ reservedSegments then some []
        else some firstSeg

/-- URL patterns scanned by extract_youtube_thumbnail: for each, the start
    marker and the character that ends the video id (src/app.py lines 279-283). -/
def ytPatterns : List (Str × Str) :=
  [(str "watch?v=", str "&"), (str "youtu.be/", str "?"), (str "/shorts/", str "?")]

/-- Loop of extract_youtube_thumbnail over the patterns.  The Python guard
    marker in url followed by url.split(marker, 1)[1] is modeled by the single
    pySplit1 match: the split yields some exactly when the marker occurs. -/
def ytScan : List (Str × Str) → Str → Str
  | [], _ => []
  | pat :: rest, url =>
    match pySplit1 pat.1 url with
    | some p =>
      let video_id := pySplitFst pat.2 p.2
      if video_id = [] then ytScan rest url
      else str "https://img.youtube.com/vi/" ++ video_id ++ str "/hqdefault.jpg"
    | none => ytScan rest url

/-- extract_youtube_thumbnail (src/app.py lines 276-289). -/
def extract_youtube_thumbnail (url : Str) : Str :=
  if url = [] then [] else ytScan ytPatterns url

/-- Python s.split(sep) without maxsplit, by repeated first-occurrence splits.
    Written with an explicit fuel argument (each found separator consumes at
    least one character, so fuel s.length + 1 always suffices) to keep the
    definition reducible in the kernel.  The sep = [] case is never used:
    Python raises on an empty separator. -/
def pySplitAllF : Nat → Str → Str → List Str
  | 0, _, s => [s]
  | n + 1, sep, s =>
    match pySplit1 sep s with
    | none => [s]
    | some p => p.1 :: pySplitAllF n sep p.2

/-- Python s.split(sep). -/
def pySplitAll (sep s : Str) : List Str := pySplitAllF (s.length + 1) sep s

/-- Keys of COLUMN_LABELS (src/app.py lines 29-51) in dictionary order: the
    known output columns. -/
def allColumns : List Str :=
  [str "influencer_id", str "platform", str "category_main", str "category_sub",
   str "account_name", str "profile_url", str "instagram_username",
   str "contact_email", str "agency", str "followers_raw", str "followers_num",
   str "follower_range", str "video_usage", str "target_2030_score",
   str "price_bdc", str "price_ppl", str "price_short", str "price_ig",
   str "thumbnail_url", str "dm_message", str "notes"]

/-- One influencers table row (schema at src/app.py lines 100-125).  The
    backend-assigned integer primary key is not modeled; text columns hold
    strings and the two numeric columns an optional integer (none = NULL). -/
structure Row where
  influencer_id : Str
  platform : Str
  category_main : Str
  category_sub : Str
  account_name : Str
  profile_url : Str
  instagram_username : Str
  contact_email : Str
  agency : Str
  followers_raw : Str
  followers_num : Option Int
  follower_range : Str
  video_usage : Str
  target_2030_score : Option Int
  price_bdc : Str
  price_ppl : Str
  price_short : Str
  price_ig : Str
  thumbnail_url : Str
  dm_message : Str
  notes : Str
  created_at : Str
  updated_at : Str
deriving DecidableEq, Repr

/-- Any-suffix scan used to interpret the LIKE percent wildcard. -/
def suffAny (f : Str → Bool) : Str → Bool
  | [] => f []
  | c :: s => f (c :: s) || suffAny f s

/-- SQL LIKE matching of a pattern against a string: percent matches any
    sequence, underscore any single character, every other character itself.
    This is the case-sensitive, escape-free semantics the PostgreSQL backend
    gives the patterns built by the filter builder; SQLite additionally
    compares ASCII letters case-insensitively, which is not modeled. -/
def likeMatch : Str → Str → Bool
  | [] => fun s => s.isEmpty
  | c :: p =>
    if c = '%' then fun s => suffAny (likeMatch p) s
    else if c = '_' then fun s =>
      match s with
      | [] => false
      | _ :: s' => likeMatch p s'
    else fun s =>
      match s with
      | [] => false
      | d :: s' => decide (c = d) && likeMatch p s'

/-- The pattern f-string percent-q-percent bound to each LIKE placeholder
    (src/app.py line 483). -/
def likePattern (q : Str) : Str := '%' :: (q ++ ['%'])

/-- One WHERE-clause condition collected by the filter builder.  The builder
    renders the SQL text and the positional parameters from these conditions
    exactly as the source appends them to its where and params lists. -/
inductive Cond where
  | freeText (pat : Str)
  | eqPlatform (v : Str)
  | eqCatMain (v : Str)
  | eqCatSub (v : Str)
deriving DecidableEq, Repr

/-- SQL text of one condition (src/app.py lines 484-501; the Python adjacent
    string literals concatenate to the single line below). -/
def condSql : Cond → Str
  | Cond.freeText _ => str "(influencer_id LIKE ? OR account_name LIKE ? OR platform LIKE ? OR category_main LIKE ? OR category_sub LIKE ? OR profile_url LIKE ? OR instagram_username LIKE ? OR contact_email LIKE ? OR agency LIKE ? OR follower_range LIKE ? OR dm_message LIKE ? OR notes LIKE ?)"
  | Cond.eqPlatform _ => str "platform = ?"
  | Cond.eqCatMain _ => str "category_main = ?"
  | Cond.eqCatSub _ => str "category_sub = ?"

/-- Positional parameters contributed by one condition: the LIKE pattern twelve
    times for the free-text clause, the exact value once otherwise. -/
def condParams : Cond → List Str
  | Cond.freeText pat => List.replicate 12 pat
  | Cond.eqPlatform v => [v]
  | Cond.eqCatMain v => [v]
  | Cond.eqCatSub v => [v]

/-- The Python " AND ".join over the rendered conditions. -/
def joinAnd : List Str → Str
  | [] => []
  | [x] => x
  | x :: xs => x ++ str " AND " ++ joinAnd xs

/-- Result record of build_filters_from_values. -/
structure Filters where
  q : Str
  platform : Str
  category_main : Str
  category_sub : Str
  conds : List Cond
  where_clause : Str
  params : List Str
  all_columns : List Str
  selected_columns : List Str
deriving Repr

/-- build_filters_from_values (src/app.py lines 467-521): each request value is
    stripped; a non-blank free-text term contributes the twelve-way LIKE
    disjunction, each non-blank exact value its equality clause; the WHERE text
    joins the collected clauses with AND; the output columns resolve to every
    known column for a blank columns request and otherwise to the requested
    names that are known columns, in request order. -/
def build_filters_from_values
    (q0 platform0 category_main0 category_sub0 columns_param0 : Str) : Filters :=
  let q := pyStrip q0
  let platform := pyStrip platform0
  let category_main := pyStrip category_main0
  let category_sub := pyStrip category_sub0
  let columns_param := pyStrip columns_param0
  let conds : List Cond :=
    (if q = [] then [] else [Cond.freeText (likePattern q)]) ++
    (if platform = [] then [] else [Cond.eqPlatform platform]) ++
    (if category_main = [] then [] else [Cond.eqCatMain category_main]) ++
    (if category_sub = [] then [] else [Cond.eqCatSub category_sub])
  let where_clause :=
    if conds = [] then [] else str "WHERE " ++ joinAnd (conds.map condSql)
  let params := (conds.map condParams).flatten
  let selected_columns :=
    if columns_param = [] then allColumns
    else (pySplitAll (str ",") columns_param).filter (fun col => col ∈ allColumns)
  { q, platform, category_main, category_sub, conds, where_clause, params,
    all_columns := allColumns, selected_columns }

/-- The twelve text fields searched by the free-text clause, in SQL order. -/
def searchFields (r : Row) : List Str :=
  [r.influencer_id, r.account_name, r.platform, r.category_main, r.category_sub,
   r.profile_url, r.instagram_username, r.contact_email, r.agency,
   r.follower_range, r.dm_message, r.notes]

/-- Meaning of one condition on a row: the SQL evaluation of its rendered text
    with its positional parameters. -/
def evalCond (r : Row) : Cond → Bool
  | Cond.freeText pat => (searchFields r).any (fun f => likeMatch pat f)
  | Cond.eqPlatform v => r.platform = v
  | Cond.eqCatMain v => r.category_main = v
  | Cond.eqCatSub v => r.category_sub = v

/-- A row satisfies the built WHERE clause: the conjunction of its conditions
    (the empty clause holds of every row). -/
def rowMatches (f : Filters) (r : Row) : Bool := f.conds.all (evalCond r)

/-- Lexicographic order on strings, as the SQL backends compare TEXT values. -/
def strLe : Str → Str → Bool
  | [], _ => true
  | _ :: _, [] => false
  | a :: x, b :: y => if a = b then strLe x y else decide (a < b)

/-- Comparator of ORDER BY updated_at DESC: a row may precede another when its
    last-update timestamp is at least the other's. -/
def updatedDesc (r1 r2 : Row) : Bool := strLe r2.updated_at r1.updated_at

/-- Insertion into a list sorted by the comparator. -/
def orderInsert (le : Row → Row → Bool) (a : Row) : List Row → List Row
  | [] => [a]
  | b :: l => if le a b then a :: b :: l else b :: orderInsert le a l

/-- Insertion sort, the model of the SQL ORDER BY clause.  SQL promises only
    a sorted permutation of the selected rows, which is what the theorems
    below use. -/
def orderSort (le : Row → Row → Bool) (l : List Row) : List Row :=
  l.foldr (orderInsert le) []

/-- Row set of the list / search / export queries (src/app.py lines 566-576):
    the rows satisfying the built filters, ordered by updated_at descending. -/
def query_influencers (f : Filters) (db : List Row) : List Row :=
  orderSort updatedDesc (db.filter (rowMatches f))

/-- apply_dm_template (src/app.py lines 853-890) acting on the table state: the
    stripped template must be non-blank; with an empty WHERE clause the
    confirm_all form value must be the string yes; then the matching rows are
    counted, and every matching row has its dm_message column set to the
    stripped template.  A none count models the flash-and-redirect rejection
    paths, which leave the table unchanged. -/
def apply_dm_template (dm0 q0 platform0 category_main0 category_sub0 confirm_all : Str)
    (db : List Row) : List Row × Option Nat :=
  let dm_template := pyStrip dm0
  if dm_template = [] then (db, none)
  else
    let filters := build_filters_from_values q0 platform0 category_main0 category_sub0 []
    if filters.where_clause = [] ∧ confirm_all ≠ str "yes" then (db, none)
    else
      let count := (db.filter (rowMatches filters)).length
      (db.map (fun r =>
         if rowMatches filters r then { r with dm_message := dm_template } else r),
       some count)

/-- One spreadsheet cell: none models a pandas NaN / missing value; cell
    contents are modeled as strings. -/
abbrev Cell := Option Str

/-- A parsed workbook: the header row and the data rows. -/
structure Sheet where
  headers : List Str
  rows : List (List Cell)

/-- Header-to-field mapping of normalize_columns (src/app.py lines 434-465). -/
def header_map : List (Str × Str) :=
  [(str "인플루언서ID", str "influencer_id"),
   (str "플랫폼", str "platform"),
   (str "카테고리(대)", str "category_main"),
   (str "카테고리(소)", str "category_sub"),
   (str "이름/계정명", str "account_name"),
   (str "프로필URL", str "profile_url"),
   (str "인스타그램아이디", str "instagram_username"),
   (str "컨택이메일", str "contact_email"),
   (str "에이전시/소속", str "agency"),
   (str "팔로워/구독자(원본)", str "followers_raw"),
   (str "팔로워/구독자(숫자)", str "followers_num"),
   (str "팔로워 구간", str "follower_range"),
   (str "영상 활용도(高/中/低)", str "video_usage"),
   (str "2030 타깃 적합도(1~5)", str "target_2030_score"),
   (str "단가_BDC", str "price_bdc"),
   (str "단가_PPL", str "price_ppl"),
   (str "단가_Short/Shorts", str "price_short"),
   (str "단가_IG", str "price_ig"),
   (str "썸네일", str "thumbnail_url"),
   (str "DM문구", str "dm_message"),
   (str "비고", str "notes"),
   (str "계정명", str "account_name"),
   (str "카테고리", str "category_main"),
   (str "주요 콘텐츠", str "category_sub"),
   (str "감성 키워드", str "notes")]

/-- normalize_columns on one header: mapping.get(col, col). -/
def normalize_column (h : Str) : Str :=
  match header_map.find? (fun p => p.1 = h) with
  | some p => p.2
  | none => h

/-- Value of a row under a normalized header: pandas row.get(field), the cell
    of the first column carrying that renamed header, NaN when absent. -/
def rowGet (headersN : List Str) (cells : List Cell) (field : Str) : Cell :=
  match (headersN.zip cells).find? (fun p => p.1 = field) with
  | some p => p.2
  | none => none

/-- clean_text (src/app.py lines 266-274) on a cell. -/
def clean_text : Cell → Str
  | none => []
  | some s => pyStrip s

/-- coerce_int on a cell: pd.isna catches the NaN case; otherwise the string
    path of coerce_int runs. -/
def coerce_int_cell : Cell → Except PyErr (Option Int)
  | none => Except.ok none
  | some s => coerce_int s

/-- fetch_thumbnail_url (src/app.py lines 291-311): the YouTube shortcut first;
    otherwise the HTTP fetch plus og:image extraction, which is fail-soft and
    modeled by the oracle parameter: the function from the fetched URL to the
    extracted thumbnail or the empty string. -/
def fetch_thumbnail_url (oracle : Str → Str) (url : Str) : Str :=
  if url = [] then []
  else
    let youtube_thumb := extract_youtube_thumbnail url
    if youtube_thumb ≠ [] then youtube_thumb else oracle url

/-- The Instagram extractor with its IndexError lifted into Except. -/
def igExtract (url : Str) : Except PyErr Str :=
  match extract_instagram_username url with
  | some s => Except.ok s
  | none => Except.error PyErr.indexError

/-- Per-row body of the import loop (src/app.py lines 777-807), in source
    order: build the cleaned data record, coerce the two numeric cells (which
    can raise), back-fill the Instagram handle (which can raise) and the
    thumbnail from the profile URL, then skip the row (ok none) when the
    display name is blank. -/
def import_row (oracle : Str → Str) (now : Str) (headersN : List Str)
    (cells : List Cell) : Except PyErr (Option Row) := do
  let influencer_id := clean_text (rowGet headersN cells (str "influencer_id"))
  let platform := clean_text (rowGet headersN cells (str "platform"))
  let category_main := clean_text (rowGet headersN cells (str "category_main"))
  let category_sub := clean_text (rowGet headersN cells (str "category_sub"))
  let account_name := clean_text (rowGet headersN cells (str "account_name"))
  let profile_url := clean_text (rowGet headersN cells (str "profile_url"))
  let instagram_username0 := clean_text (rowGet headersN cells (str "instagram_username"))
  let contact_email := clean_text (rowGet headersN cells (str "contact_email"))
  let agency := clean_text (rowGet headersN cells (str "agency"))
  let followers_raw := clean_text (rowGet headersN cells (str "followers_raw"))
  let followers_num ← coerce_int_cell (rowGet headersN cells (str "followers_num"))
  let follower_range := clean_text (rowGet headersN cells (str "follower_range"))
  let video_usage := clean_text (rowGet headersN cells (str "video_usage"))
  let target_2030_score ← coerce_int_cell (rowGet headersN cells (str "target_2030_score"))
  let price_bdc := clean_text (rowGet headersN cells (str "price_bdc"))
  let price_ppl := clean_text (rowGet headersN cells (str "price_ppl"))
  let price_short := clean_text (rowGet headersN cells (str "price_short"))
  let price_ig := clean_text (rowGet headersN cells (str "price_ig"))
  let thumbnail_url0 := clean_text (rowGet headersN cells (str "thumbnail_url"))
  let dm_message := clean_text (rowGet headersN cells (str "dm_message"))
  let notes := clean_text (rowGet headersN cells (str "notes"))
  let instagram_username ←
    if instagram_username0 = [] ∧ profile_url ≠ [] then igExtract profile_url
    else Except.ok instagram_username0
  let thumbnail_url :=
    if thumbnail_url0 = [] ∧ profile_url ≠ [] then fetch_thumbnail_url oracle profile_url
    else thumbnail_url0
  if account_name = [] then
    return none
  else
    return some {
      influencer_id, platform, category_main, category_sub, account_name,
      profile_url, instagram_username, contact_email, agency, followers_raw,
      followers_num, follower_range, video_usage, target_2030_score,
      price_bdc, price_ppl, price_short, price_ig, thumbnail_url, dm_message,
      notes, created_at := now, updated_at := now }

/-- Insert loop of import_excel: each accepted row is appended to the table and
    counted; a raised exception aborts the loop. -/
def import_loop (oracle : Str → Str) (now : Str) (headersN : List Str) :
    List (List Cell) → List Row → Nat → Except PyErr (List Row × Nat)
  | [], db, n => Except.ok (db, n)
  | cells :: rest, db, n =>
    match import_row oracle now headersN cells with
    | Except.error e => Except.error e
    | Except.ok none => import_loop oracle now headersN rest db n
    | Except.ok (some r) => import_loop oracle now headersN rest (db ++ [r]) (n + 1)

/-- import_excel (src/app.py lines 754-851) acting on the table: headers are
    renamed; the run aborts (no count, table unchanged) when no account_name
    column resolves; rows whose account_name cell is NaN are dropped; the rest
    are processed in order.  A raised exception also leaves the table
    unchanged: the route never reaches conn.commit(), so the open transaction
    with its uncommitted inserts is discarded. -/
def import_excel (oracle : Str → Str) (now : Str) (sheet : Sheet) (db : List Row) :
    List Row × Option Nat :=
  let headersN := sheet.headers.map normalize_column
  if str "account_name" ∈ headersN then
    let kept := sheet.rows.filter
      (fun cells => (rowGet headersN cells (str "account_name")).isSome)
    match import_loop oracle now headersN kept db 0 with
    | Except.error _ => (db, none)
    | Except.ok p => (p.1, some p.2)
  else (db, none)

/-- A concrete row shape used to evaluate the filter and update operations on
    explicit table states. -/
def rowOf (platformV dmV updV : Str) : Row :=
  { influencer_id := str "x", platform := platformV, category_main := str "x",
    category_sub := str "x", account_name := str "x", profile_url := str "x",
    instagram_username := str "x", contact_email := str "x", agency := str "x",
    followers_raw := str "x", followers_num := none, follower_range := str "x",
    video_usage := str "x", target_2030_score := none, price_bdc := str "x",
    price_ppl := str "x", price_short := str "x", price_ig := str "x",
    thumbnail_url := str "x", dm_message := dmV, notes := str "x",
    created_at := updV, updated_at := updV }

/-- A row every one of whose searched text fields is the single letter x. -/
def r0 : Row := rowOf (str "x") (str "x") (str "t1")

/-- A YouTube row and an Instagram row for concrete filter evaluations. -/
def rYT : Row := rowOf (str "YouTube") (str "old") (str "t2")

/-- See rYT. -/
def rIG : Row := rowOf (str "Instagram") (str "old") (str "t3")

/- ------------------------------------------------------------------ -/
/- Lemmas about the Python string primitives.                          -/
/- ------------------------------------------------------------------ -/

theorem isPre_iff (x y : Str) : isPre x y = true ↔ x <+: y := by
  induction x generalizing y with
  | nil => simp [isPre]
  | cons a x ih =>
    cases y with
    | nil => simp [isPre]
    | cons b y => simp [isPre, List.cons_prefix_cons, ih]

theorem pySplit1_isSome_iff (sep s : Str) : (pySplit1 sep s).isSome = true ↔ sep <:+: s := by
  induction s with
  | nil =>
    by_cases h : isPre sep []
    · have hp : sep <+: ([] : Str) := (isPre_iff sep []).mp h
      simp [pySplit1, h, hp.isInfix]
    · have hp : ¬ sep <+: ([] : Str) := fun hc => h ((isPre_iff sep []).mpr hc)
      simp only [List.prefix_nil] at hp
      simp [pySplit1, h, List.infix_nil, hp]
  | cons c rest ih =>
    by_cases h : isPre sep (c :: rest)
    · have hp : sep <+: c :: rest := (isPre_iff sep (c :: rest)).mp h
      simp [pySplit1, h, hp.isInfix]
    · have hp : ¬ sep <+: c :: rest := fun hc => h ((isPre_iff sep (c :: rest)).mpr hc)
      simp [pySplit1, h, List.infix_cons_iff, hp, ih, Option.isSome_map]

theorem pyIn_iff (sep s : Str) : pyIn sep s = true ↔ sep <:+: s :=
  pySplit1_isSome_iff sep s

theorem pyIn_false_iff (sep s : Str) : pyIn sep s = false ↔ ¬ sep <:+: s := by
  rw [← pyIn_iff]
  cases pyIn sep s <;> simp

theorem pySplit1_eq_none_of_pyIn (sep s : Str) (h : pyIn sep s = false) :
    pySplit1 sep s = none := by
  have := h
  unfold pyIn at this
  cases hx : pySplit1 sep s with
  | none => rfl
  | some p => rw [hx] at this; simp at this

/-- First-occurrence split at a structured occurrence: when sep does not occur
    anywhere strictly before the marked position, pySplit1 cuts exactly there. -/
theorem pySplit1_marker (sep pre suf : Str) (hsep : sep ≠ [])
    (H : pyIn sep ((pre ++ sep).dropLast) = false) :
    pySplit1 sep (pre ++ sep ++ suf) = some (pre, suf) := by
  induction pre with
  | nil =>
    have hp : isPre sep (sep ++ suf) = true :=
      (isPre_iff sep (sep ++ suf)).mpr (List.prefix_append sep suf)
    cases hsep' : sep with
    | nil => exact absurd hsep' hsep
    | cons a sep' =>
      rw [← hsep']
      show pySplit1 sep ([] ++ sep ++ suf) = some ([], suf)
      rw [List.nil_append]
      cases hss : sep ++ suf with
      | nil =>
        rcases List.append_eq_nil.mp hss with ⟨h1, _⟩
        exact absurd h1 hsep
      | cons b t =>
        rw [← hss]
        have : pySplit1 sep (sep ++ suf) =
            if isPre sep (sep ++ suf) then some ([], (sep ++ suf).drop sep.length)
            else (pySplit1 sep t).map (fun p => (b :: p.1, p.2)) := by
          rw [hss]; rfl
        rw [this, if_pos hp, List.drop_left]
  | cons c pre' ih =>
    have Hinfix : ¬ sep <:+: ((c :: pre') ++ sep).dropLast := (pyIn_false_iff _ _).mp H
    have hnotp : ¬ isPre sep (c :: pre' ++ sep ++ suf) := by
      intro hp
      have hpre : sep <+: ((c :: pre') ++ sep) ++ suf := (isPre_iff _ _).mp hp
      have hlen : sep.length ≤ ((c :: pre') ++ sep).length := by
        simp [List.length_append]
        omega
      have heq : sep = (((c :: pre') ++ sep) ++ suf).take sep.length :=
        List.prefix_iff_eq_take.mp hpre
      rw [List.take_append_of_le_length hlen] at heq
      have hlen2 : sep.length ≤ ((c :: pre') ++ sep).length - 1 := by
        simp only [List.length_append, List.length_cons]
        omega
      have h3 : (((c :: pre') ++ sep).take (((c :: pre') ++ sep).length - 1)).take sep.length =
          ((c :: pre') ++ sep).take sep.length := by
        rw [List.take_take]
        congr 1
        omega
      have : sep <+: ((c :: pre') ++ sep).dropLast := by
        rw [List.dropLast_eq_take, List.prefix_iff_eq_take, h3]
        exact heq
      exact Hinfix this.isInfix
    have H' : pyIn sep ((pre' ++ sep).dropLast) = false := by
      rw [pyIn_false_iff]
      intro hc
      apply Hinfix
      have hne2 : pre' ++ sep ≠ [] := by
        intro hx
        exact hsep (List.append_eq_nil.mp hx).2
      have : ((c :: pre') ++ sep).dropLast = c :: (pre' ++ sep).dropLast := by
        show (c :: (pre' ++ sep)).dropLast = c :: (pre' ++ sep).dropLast
        cases hpp : pre' ++ sep with
        | nil => exact absurd hpp hne2
        | cons d t => simp [List.dropLast]
      rw [this]
      exact List.infix_cons hc
    show pySplit1 sep (c :: (pre' ++ sep ++ suf)) = some (c :: pre', suf)
    have hstep : pySplit1 sep (c :: (pre' ++ sep ++ suf)) =
        if isPre sep (c :: (pre' ++ sep ++ suf)) then
          some ([], (c :: (pre' ++ sep ++ suf)).drop sep.length)
        else (pySplit1 sep (pre' ++ sep ++ suf)).map (fun p => (c :: p.1, p.2)) := rfl
    rw [hstep, if_neg (by simpa using hnotp), ih H']
    rfl

theorem singleton_infix_iff (c : Char) (s : Str) : [c] <:+: s ↔ c ∈ s := by
  induction s with
  | nil => simp [List.infix_nil]
  | cons a t ih =>
    rw [List.infix_cons_iff]
    constructor
    · rintro (hp | hi)
      · rcases List.cons_prefix_cons.mp hp with ⟨rfl, _⟩
        exact List.mem_cons_self _ _
      · exact List.mem_cons_of_mem _ (ih.mp hi)
    · intro hm
      rcases List.mem_cons.mp hm with rfl | hm
      · exact Or.inl (List.cons_prefix_cons.mpr ⟨rfl, List.nil_prefix⟩)
      · exact Or.inr (ih.mpr hm)

theorem pySplit1_single_none (c : Char) (s : Str) (h : c ∉ s) : pySplit1 [c] s = none := by
  apply pySplit1_eq_none_of_pyIn
  rw [pyIn_false_iff, singleton_infix_iff]
  exact h

theorem pySplit1_single_app (c : Char) (A B : Str) (h : c ∉ A) :
    pySplit1 [c] (A ++ B) = (pySplit1 [c] B).map (fun p => (A ++ p.1, p.2)) := by
  induction A with
  | nil =>
    rw [List.nil_append]
    cases hx : pySplit1 [c] B <;> simp [hx]
  | cons a A' ih =>
    have hac : ¬ c = a := fun hx => h (hx ▸ List.mem_cons_self a A')
    have h' : c ∉ A' := fun hx => h (List.mem_cons_of_mem a hx)
    have hstep : pySplit1 [c] (a :: (A' ++ B)) =
        if isPre [c] (a :: (A' ++ B)) then some ([], (a :: (A' ++ B)).drop 1)
        else (pySplit1 [c] (A' ++ B)).map (fun p => (a :: p.1, p.2)) := rfl
    show pySplit1 [c] (a :: (A' ++ B)) = _
    rw [hstep, if_neg (by simp [isPre, hac]), ih h']
    cases pySplit1 [c] B <;> simp

theorem pySplit1_single_found (c : Char) (A B : Str) (h : c ∉ A) :
    pySplit1 [c] (A ++ c :: B) = some (A, B) := by
  rw [pySplit1_single_app c A _ h]
  have : pySplit1 [c] (c :: B) = some ([], B) := by
    have hstep : pySplit1 [c] (c :: B) =
        if isPre [c] (c :: B) then some ([], (c :: B).drop 1)
        else (pySplit1 [c] B).map (fun p => (c :: p.1, p.2)) := rfl
    rw [hstep, if_pos (by simp [isPre])]
    rfl
  rw [this]
  simp

theorem pySplitFst_single_no (c : Char) (s : Str) (h : c ∉ s) : pySplitFst [c] s = s := by
  rw [pySplitFst, pySplit1_single_none c s h]

theorem pySplitFst_single_found (c : Char) (A B : Str) (h : c ∉ A) :
    pySplitFst [c] (A ++ c :: B) = A := by
  rw [pySplitFst, pySplit1_single_found c A B h]

theorem pySplitFst_single_app (c : Char) (A B : Str) (h : c ∉ A) :
    pySplitFst [c] (A ++ B) = A ++ pySplitFst [c] B := by
  rw [pySplitFst, pySplitFst, pySplit1_single_app c A B h]
  cases pySplit1 [c] B <;> simp

theorem pySplitFst_cons_ne (c d : Char) (t : Str) (h : ¬ c = d) :
    ∃ t2, pySplitFst [c] (d :: t) = d :: t2 := by
  rw [pySplitFst]
  have hstep : pySplit1 [c] (d :: t) =
      if isPre [c] (d :: t) then some ([], (d :: t).drop 1)
      else (pySplit1 [c] t).map (fun p => (d :: p.1, p.2)) := rfl
  rw [hstep, if_neg (by simp [isPre, h])]
  cases pySplit1 [c] t with
  | none => exact ⟨t, rfl⟩
  | some p => exact ⟨p.1, rfl⟩

theorem dropWhile_forall_false (p : Char → Bool) (s : Str) (h : ∀ x ∈ s, p x = false) :
    s.dropWhile p = s := by
  cases s with
  | nil => rfl
  | cons a t => simp [List.dropWhile_cons, h a (List.mem_cons_self a t)]

theorem prefix_head_eq (w u : Str) (h : w <+: u) (hw : w ≠ []) : w.head? = u.head? := by
  cases w with
  | nil => exact absurd rfl hw
  | cons a w' =>
    cases u with
    | nil =>
      have := List.prefix_nil.mp h
      simp at this
    | cons b u' =>
      rcases List.cons_prefix_cons.mp h with ⟨rfl, _⟩
      rfl

theorem pyStripChar_no (c : Char) (s : Str) (h : c ∉ s) : pyStripChar c s = s := by
  have h1 : ∀ x ∈ s, decide (x = c) = false := fun x hx =>
    decide_eq_false (fun he => h (he ▸ hx))
  have h2 : ∀ x ∈ s.reverse, decide (x = c) = false := fun x hx =>
    h1 x (List.mem_reverse.mp hx)
  unfold pyStripChar
  rw [dropWhile_forall_false _ _ h1, dropWhile_forall_false _ _ h2, List.reverse_reverse]

/-- Stripping the character c from both ends of seg ++ u, where seg avoids c and
    u is empty or starts with c: the result is seg followed by a (possibly
    empty) block that again is empty or starts with c. -/
theorem pyStripChar_decomp (c : Char) (seg u : Str) (hne : seg ≠ [])
    (hs : c ∉ seg) (hu : u = [] ∨ u.head? = some c) :
    ∃ w, pyStripChar c (seg ++ u) = seg ++ w ∧ (w = [] ∨ w.head? = some c) := by
  have hsegf : ∀ x ∈ seg, decide (x = c) = false := fun x hx =>
    decide_eq_false (fun he => hs (he ▸ hx))
  have hlead : (seg ++ u).dropWhile (fun x => decide (x = c)) = seg ++ u := by
    cases seg with
    | nil => exact absurd rfl hne
    | cons a t =>
      have ha : decide (a = c) = false := hsegf a (List.mem_cons_self a t)
      simp [List.dropWhile_cons, ha]
  unfold pyStripChar
  rw [hlead, List.reverse_append, List.dropWhile_append]
  by_cases hemp : (u.reverse.dropWhile (fun x => decide (x = c))).isEmpty
  · rw [if_pos hemp]
    rw [dropWhile_forall_false _ _ (fun x hx => hsegf x (List.mem_reverse.mp hx))]
    rw [List.reverse_reverse]
    exact ⟨[], by simp, Or.inl rfl⟩
  · rw [if_neg hemp]
    rw [List.reverse_append, List.reverse_reverse]
    refine ⟨(u.reverse.dropWhile fun x => decide (x = c)).reverse, rfl, Or.inr ?_⟩
    have hxne : u.reverse.dropWhile (fun x => decide (x = c)) ≠ [] := by
      intro hx
      rw [hx] at hemp
      simp at hemp
    have hw : (u.reverse.dropWhile fun x => decide (x = c)).reverse <+: u := by
      rw [← List.reverse_suffix, List.reverse_reverse]
      exact List.dropWhile_suffix _
    have hwne : (u.reverse.dropWhile fun x => decide (x = c)).reverse ≠ [] := by
      simpa using hxne
    have hune : u ≠ [] := by
      intro hx
      subst hx
      exact hwne (List.prefix_nil.mp hw)
    rcases hu with hu | hu
    · exact absurd hu hune
    · rw [prefix_head_eq _ _ hw hwne, hu]

/- ------------------------------------------------------------------ -/
/- Evaluation lemmas for the Instagram and YouTube extractors.         -/
/- ------------------------------------------------------------------ -/

theorem str_qmark : str "?" = ['?'] := rfl

theorem str_slash : str "/" = ['/'] := rfl

theorem str_amp : str "&" = ['&'] := rfl

theorem instagram_base : str "https://instagram.com/" = str "https://" ++ str "instagram.com/" :=
  rfl

theorem instagram_split (rest : Str) :
    pySplit1 (str "instagram.com/") (str "https://instagram.com/" ++ rest) =
      some (str "https://", rest) := by
  rw [instagram_base]
  exact pySplit1_marker _ _ _ (by decide) (by decide)

theorem instagram_contains (rest : Str) :
    pyIn (str "instagram.com") (str "https://instagram.com/" ++ rest) = true := by
  rw [pyIn_iff]
  exact ⟨str "https://", '/' :: rest, rfl⟩

theorem extract_instagram_eval (rest : Str) :
    extract_instagram_username (str "https://instagram.com/" ++ rest) =
      (if pyStripChar '/' (pySplitFst (str "?") rest) = [] then some []
       else if pySplitFst (str "/") (pyStripChar '/' (pySplitFst (str "?") rest)) ∈
           reservedSegments then some []
       else some (pySplitFst (str "/") (pyStripChar '/' (pySplitFst (str "?") rest)))) := by
  have hne : str "https://instagram.com/" ++ rest ≠ [] := by
    show 'h' :: (str "ttps://instagram.com/" ++ rest) ≠ []
    simp
  unfold extract_instagram_username
  rw [if_neg hne, instagram_contains rest, instagram_split rest]
  simp only [Bool.not_true, Bool.false_eq_true, if_false]

theorem instagram_reserved_core (seg tail : Str) (hne : seg ≠ []) (hsl : '/' ∉ seg)
    (hq : '?' ∉ seg) (hres : seg ∈ reservedSegments)
    (htail : tail = [] ∨ tail.head? = some '/' ∨ tail.head? = some '?') :
    extract_instagram_username (str "https://instagram.com/" ++ (seg ++ tail)) = some [] := by
  rw [extract_instagram_eval (seg ++ tail), str_qmark, str_slash]
  have hsegne : ∀ w : Str, seg ++ w ≠ [] := by
    intro w hx
    exact hne (List.append_eq_nil.mp hx).1
  rcases htail with rfl | htail | htail
  · rw [List.append_nil, pySplitFst_single_no '?' seg hq, pyStripChar_no '/' seg hsl]
    rw [if_neg hne, pySplitFst_single_no '/' seg hsl, if_pos hres]
  · cases tail with
    | nil => simp at htail
    | cons a t =>
      have ha : a = '/' := by simpa using htail
      subst ha
      rw [pySplitFst_single_app '?' seg ('/' :: t) hq]
      rcases pySplitFst_cons_ne '?' '/' t (by decide) with ⟨t2, ht2⟩
      rw [ht2]
      rcases pyStripChar_decomp '/' seg ('/' :: t2) hne hsl (Or.inr rfl) with ⟨w, hw, hwc⟩
      rw [hw, if_neg (hsegne w)]
      rcases hwc with rfl | hwc
      · rw [List.append_nil, pySplitFst_single_no '/' seg hsl, if_pos hres]
      · cases w with
        | nil => simp at hwc
        | cons b w' =>
          have hb : b = '/' := by simpa using hwc
          subst hb
          rw [pySplitFst_single_found '/' seg w' hsl, if_pos hres]
  · cases tail with
    | nil => simp at htail
    | cons a t =>
      have ha : a = '?' := by simpa using htail
      subst ha
      rw [pySplitFst_single_found '?' seg t hq, pyStripChar_no '/' seg hsl]
      rw [if_neg hne, pySplitFst_single_no '/' seg hsl, if_pos hres]

/-- Claim C3: the Instagram handle extractor is claimed to return a result on
    every input without raising; in fact an input that contains "instagram.com"
    but not "instagram.com/" makes url.split("instagram.com/", 1)[1] raise
    IndexError (the none result of the model). -/
theorem extract_instagram_username_crash :
    extract_instagram_username (str "https://instagram.com") = none := by decide

/-- Claim C2: for profile URLs https://instagram.com/user whose user part is a
    plain segment (nonempty, no slash, no query separator, not reserved) the
    extractor returns the user part; when the first path component is a reserved
    segment it returns the empty string; and any URL not containing
    instagram.com yields the empty string. -/
theorem extract_instagram_username_spec :
    (∀ user : Str, user ≠ [] → '/' ∉ user → '?' ∉ user → user ∉ reservedSegments →
      extract_instagram_username (str "https://instagram.com/" ++ user) = some user) ∧
    (∀ seg tail : Str, seg ∈ reservedSegments →
      (tail = [] ∨ tail.head? = some '/' ∨ tail.head? = some '?') →
      extract_instagram_username (str "https://instagram.com/" ++ (seg ++ tail)) = some []) ∧
    (∀ url : Str, pyIn (str "instagram.com") url = false →
      extract_instagram_username url = some []) := by
  refine ⟨?_, ?_, ?_⟩
  · intro user hne hsl hq hres
    rw [extract_instagram_eval user, str_qmark, str_slash]
    rw [pySplitFst_single_no '?' user hq, pyStripChar_no '/' user hsl]
    rw [if_neg hne, pySplitFst_single_no '/' user hsl, if_neg hres]
  · intro seg tail hres htail
    have hres' := hres
    simp only [reservedSegments, List.mem_cons, List.mem_singleton,
      List.not_mem_nil, or_false] at hres'
    rcases hres' with rfl | rfl | rfl | rfl | rfl <;>
      exact instagram_reserved_core _ tail (by decide) (by decide) (by decide) hres htail
  · intro url h
    by_cases hu : url = []
    · subst hu; rfl
    · unfold extract_instagram_username
      rw [if_neg hu, h]
      rfl

theorem extract_instagram_username_spec_witness :
    extract_instagram_username (str "https://instagram.com/jdoe") = some (str "jdoe") ∧
    extract_instagram_username (str "https://instagram.com/reel/abc") = some [] ∧
    extract_instagram_username (str "https://example.com/jdoe") = some [] := by
  refine ⟨?_, ?_, ?_⟩
  · exact extract_instagram_username_spec.1 (str "jdoe")
      (by decide) (by decide) (by decide) (by decide)
  · exact extract_instagram_username_spec.2.1 (str "reel") (str "/abc")
      (by decide) (Or.inr (Or.inl (by decide)))
  · exact extract_instagram_username_spec.2.2 (str "https://example.com/jdoe") (by decide)

theorem ytScan_cons (marker ender : Str) (rest : List (Str × Str)) (url : Str) :
    ytScan ((marker, ender) :: rest) url =
      (match pySplit1 marker url with
       | some p =>
         if pySplitFst ender p.2 = [] then ytScan rest url
         else str "https://img.youtube.com/vi/" ++ pySplitFst ender p.2 ++ str "/hqdefault.jpg"
       | none => ytScan rest url) := rfl

/-- Claim C7: for URLs shaped around the three video-id markers the thumbnail
    extractor returns the conventional thumbnail URL for the extracted id; a URL
    containing none of the markers yields the empty string.  Each part carries
    the hypothesis that the relevant marker occurs first at the indicated
    position (and, for the later patterns, that the earlier markers are absent,
    since the source scans the patterns in order). -/
theorem extract_youtube_thumbnail_spec :
    (∀ pre vid tail : Str,
      pyIn (str "watch?v=") ((pre ++ str "watch?v=").dropLast) = false →
      vid ≠ [] → '&' ∉ vid → (tail = [] ∨ tail.head? = some '&') →
      extract_youtube_thumbnail (pre ++ str "watch?v=" ++ vid ++ tail) =
        str "https://img.youtube.com/vi/" ++ vid ++ str "/hqdefault.jpg") ∧
    (∀ pre vid tail : Str,
      pyIn (str "watch?v=") (pre ++ str "youtu.be/" ++ vid ++ tail) = false →
      pyIn (str "youtu.be/") ((pre ++ str "youtu.be/").dropLast) = false →
      vid ≠ [] → '?' ∉ vid → (tail = [] ∨ tail.head? = some '?') →
      extract_youtube_thumbnail (pre ++ str "youtu.be/" ++ vid ++ tail) =
        str "https://img.youtube.com/vi/" ++ vid ++ str "/hqdefault.jpg") ∧
    (∀ pre vid tail : Str,
      pyIn (str "watch?v=") (pre ++ str "/shorts/" ++ vid ++ tail) = false →
      pyIn (str "youtu.be/") (pre ++ str "/shorts/" ++ vid ++ tail) = false →
      pyIn (str "/shorts/") ((pre ++ str "/shorts/").dropLast) = false →
      vid ≠ [] → '?' ∉ vid → (tail = [] ∨ tail.head? = some '?') →
      extract_youtube_thumbnail (pre ++ str "/shorts/" ++ vid ++ tail) =
        str "https://img.youtube.com/vi/" ++ vid ++ str "/hqdefault.jpg") ∧
    (∀ url : Str,
      pyIn (str "watch?v=") url = false → pyIn (str "youtu.be/") url = false →
      pyIn (str "/shorts/") url = false → extract_youtube_thumbnail url = []) := by
  have hvid_of : ∀ (e : Char) (vid tail : Str), e ∉ vid →
      (tail = [] ∨ tail.head? = some e) → pySplitFst [e] (vid ++ tail) = vid := by
    intro e vid tail he htail
    rcases htail with rfl | htail
    · rw [List.append_nil]; exact pySplitFst_single_no e vid he
    · cases tail with
      | nil => simp at htail
      | cons a t =>
        have ha : a = e := by simpa using htail
        subst ha
        exact pySplitFst_single_found _ vid t he
  have hne_of : ∀ (m : Str) (pre vid tail : Str), m ≠ [] →
      (pre ++ m ++ vid ++ tail) ≠ [] := by
    intro m pre vid tail hm hx
    rcases List.append_eq_nil.mp hx with ⟨hx1, -⟩
    rcases List.append_eq_nil.mp hx1 with ⟨hx2, -⟩
    exact hm (List.append_eq_nil.mp hx2).2
  have hsplit_of : ∀ (m : Str) (pre vid tail : Str), m ≠ [] →
      pyIn m ((pre ++ m).dropLast) = false →
      pySplit1 m (pre ++ m ++ vid ++ tail) = some (pre, vid ++ tail) := by
    intro m pre vid tail hm H
    rw [List.append_assoc (pre ++ m) vid tail]
    exact pySplit1_marker m pre (vid ++ tail) hm H
  refine ⟨?_, ?_, ?_, ?_⟩
  · intro pre vid tail H hv hamp htail
    unfold extract_youtube_thumbnail
    rw [if_neg (hne_of _ pre vid tail (by decide))]
    show ytScan [(str "watch?v=", str "&"), (str "youtu.be/", str "?"),
      (str "/shorts/", str "?")] _ = _
    rw [ytScan_cons, hsplit_of _ pre vid tail (by decide) H]
    have hvid : pySplitFst (str "&") (vid ++ tail) = vid := by
      rw [str_amp]; exact hvid_of '&' vid tail hamp htail
    simp [hvid, hv]
  · intro pre vid tail hw H hv hq htail
    unfold extract_youtube_thumbnail
    rw [if_neg (hne_of _ pre vid tail (by decide))]
    show ytScan [(str "watch?v=", str "&"), (str "youtu.be/", str "?"),
      (str "/shorts/", str "?")] _ = _
    rw [ytScan_cons, pySplit1_eq_none_of_pyIn _ _ hw]
    show ytScan [(str "youtu.be/", str "?"), (str "/shorts/", str "?")] _ = _
    rw [ytScan_cons, hsplit_of _ pre vid tail (by decide) H]
    have hvid : pySplitFst (str "?") (vid ++ tail) = vid := by
      rw [str_qmark]; exact hvid_of '?' vid tail hq htail
    simp [hvid, hv]
  · intro pre vid tail hw hy H hv hq htail
    unfold extract_youtube_thumbnail
    rw [if_neg (hne_of _ pre vid tail (by decide))]
    show ytScan [(str "watch?v=", str "&"), (str "youtu.be/", str "?"),
      (str "/shorts/", str "?")] _ = _
    rw [ytScan_cons, pySplit1_eq_none_of_pyIn _ _ hw]
    show ytScan [(str "youtu.be/", str "?"), (str "/shorts/", str "?")] _ = _
    rw [ytScan_cons, pySplit1_eq_none_of_pyIn _ _ hy]
    show ytScan [(str "/shorts/", str "?")] _ = _
    rw [ytScan_cons, hsplit_of _ pre vid tail (by decide) H]
    have hvid : pySplitFst (str "?") (vid ++ tail) = vid := by
      rw [str_qmark]; exact hvid_of '?' vid tail hq htail
    simp [hvid, hv]
  · intro url hw hy hs
    by_cases hu : url = []
    · subst hu; rfl
    · unfold extract_youtube_thumbnail
      rw [if_neg hu]
      show ytScan [(str "watch?v=", str "&"), (str "youtu.be/", str "?"),
        (str "/shorts/", str "?")] _ = _
      rw [ytScan_cons, pySplit1_eq_none_of_pyIn _ _ hw]
      show ytScan [(str "youtu.be/", str "?"), (str "/shorts/", str "?")] _ = _
      rw [ytScan_cons, pySplit1_eq_none_of_pyIn _ _ hy]
      show ytScan [(str "/shorts/", str "?")] _ = _
      rw [ytScan_cons, pySplit1_eq_none_of_pyIn _ _ hs]
      rfl

theorem extract_youtube_thumbnail_spec_witness :
    extract_youtube_thumbnail (str "https://www.youtube.com/watch?v=abc&t=1") =
      str "https://img.youtube.com/vi/abc/hqdefault.jpg" ∧
    extract_youtube_thumbnail (str "https://youtu.be/xyz?t=2") =
      str "https://img.youtube.com/vi/xyz/hqdefault.jpg" ∧
    extract_youtube_thumbnail (str "https://youtube.com/shorts/QQ") =
      str "https://img.youtube.com/vi/QQ/hqdefault.jpg" ∧
    extract_youtube_thumbnail (str "https://example.com/page") = [] := by
  refine ⟨?_, ?_, ?_, ?_⟩
  · exact extract_youtube_thumbnail_spec.1 (str "https://www.youtube.com/") (str "abc")
      (str "&t=1") (by decide) (by decide) (by decide) (Or.inr (by decide))
  · exact extract_youtube_thumbnail_spec.2.1 (str "https://") (str "xyz") (str "?t=2")
      (by decide) (by decide) (by decide) (by decide) (Or.inr (by decide))
  · exact extract_youtube_thumbnail_spec.2.2.1 (str "https://youtube.com") (str "QQ") []
      (by decide) (by decide) (by decide) (by decide) (by decide) (Or.inl rfl)
  · exact extract_youtube_thumbnail_spec.2.2.2 (str "https://example.com/page")
      (by decide) (by decide) (by decide)

/-- Claim C9: numeric coercion maps "1,234" to 1234, "abc" to absent, blank
    input to absent and "12.7" to 12, but it is not total: python int(float())
    on an infinite value raises OverflowError, which the except clause (catching
    only ValueError and TypeError) does not stop, so coerce_int("inf") raises. -/
theorem coerce_int_overflow_bug :
    coerce_int (str "1,234") = Except.ok (some 1234) ∧
    coerce_int (str "abc") = Except.ok none ∧
    coerce_int (str "") = Except.ok none ∧
    coerce_int (str "   ") = Except.ok none ∧
    coerce_int (str "12.7") = Except.ok (some 12) ∧
    coerce_int (str "inf") = Except.error PyErr.overflowError := by
  refine ⟨by decide, by decide, by decide, by decide, by decide, by decide⟩

/-- Claim C10: the effective discovery limit is the supplied limit clamped to
    the interval from 1 to 25, with default 10 when the parameter is empty,
    absent (modeled as the empty string) or not a valid integer. -/
theorem discover_limit_spec (s : Str) :
    (1 ≤ discover_limit s ∧ discover_limit s ≤ 25) ∧
    (pyStrip s = [] → discover_limit s = 10) ∧
    (pyIntParse (pyStrip s) = none → discover_limit s = 10) ∧
    (∀ n : Int, pyIntParse (pyStrip s) = some n → pyStrip s ≠ [] →
      discover_limit s = max 1 (min n 25)) := by
  have hb : ∀ v : Int, 1 ≤ max 1 (min v 25) ∧ max 1 (min v 25) ≤ 25 := by
    intro v
    constructor <;> omega
  by_cases h : pyStrip s = []
  · have hval : discover_limit s = 10 := by
      unfold discover_limit DEFAULT_DISCOVER_LIMIT
      simp [h]
    refine ⟨by rw [hval]; omega, fun _ => hval, fun _ => hval, ?_⟩
    intro n _ hne
    exact absurd h hne
  · rcases hp : pyIntParse (pyStrip s) with _ | n
    · have hval : discover_limit s = 10 := by
        unfold discover_limit DEFAULT_DISCOVER_LIMIT
        simp [h, hp]
      refine ⟨by rw [hval]; omega, fun hc => absurd hc h, fun _ => hval, ?_⟩
      intro n hn _
      exact Option.noConfusion hn
    · have hval : discover_limit s = max 1 (min n 25) := by
        unfold discover_limit DEFAULT_DISCOVER_LIMIT
        simp [h, hp]
      refine ⟨by rw [hval]; exact hb n, fun hc => absurd hc h,
        fun hc => Option.noConfusion hc, ?_⟩
      intro m hm _
      injection hm with hm
      subst hm
      exact hval

theorem discover_limit_spec_witness :
    discover_limit (str "30") = 25 ∧ discover_limit (str "abc") = 10 := by
  constructor
  · have h := (discover_limit_spec (str "30")).2.2.2 30 (by decide) (by decide)
    rw [h]
    decide
  · exact (discover_limit_spec (str "abc")).2.2.1 (by decide)

/- ------------------------------------------------------------------ -/
/- Semantics of the LIKE patterns and of the ORDER BY clause.          -/
/- ------------------------------------------------------------------ -/

theorem suffAny_iff (f : Str → Bool) (s : Str) :
    suffAny f s = true ↔ ∃ t, t <:+ s ∧ f t = true := by
  induction s with
  | nil =>
    constructor
    · intro h
      exact ⟨[], List.suffix_refl [], h⟩
    · rintro ⟨t, ht, hf⟩
      rw [List.suffix_nil.mp ht] at hf
      exact hf
  | cons c s ih =>
    simp only [suffAny, Bool.or_eq_true, ih]
    constructor
    · rintro (h | ⟨t, ht, hf⟩)
      · exact ⟨c :: s, List.suffix_refl _, h⟩
      · exact ⟨t, ht.trans (List.suffix_cons c s), hf⟩
    · rintro ⟨t, ht, hf⟩
      rcases List.suffix_cons_iff.mp ht with rfl | ht
      · exact Or.inl hf
      · exact Or.inr ⟨t, ht, hf⟩

theorem likeMatch_pct (p s : Str) : likeMatch ('%' :: p) s = suffAny (likeMatch p) s := by
  rw [likeMatch, if_pos rfl]

theorem likeMatch_lit_cons (c : Char) (p : Str) (h1 : ¬ c = '%') (h2 : ¬ c = '_')
    (d : Char) (s' : Str) :
    likeMatch (c :: p) (d :: s') = (decide (c = d) && likeMatch p s') := by
  rw [likeMatch, if_neg h1, if_neg h2]

theorem likeMatch_lit_nil (c : Char) (p : Str) (h1 : ¬ c = '%') (h2 : ¬ c = '_') :
    likeMatch (c :: p) [] = false := by
  rw [likeMatch, if_neg h1, if_neg h2]

theorem likeMatch_lit_append : ∀ q : Str, (∀ x ∈ q, x ≠ '%' ∧ x ≠ '_') →
    ∀ t, (likeMatch (q ++ ['%']) t = true ↔ q <+: t) := by
  intro q
  induction q with
  | nil =>
    intro _ t
    rw [List.nil_append, likeMatch_pct]
    constructor
    · intro _
      exact List.nil_prefix
    · intro _
      rw [suffAny_iff]
      exact ⟨[], List.nil_suffix, rfl⟩
  | cons c q ih =>
    intro hq t
    have hc := hq c (List.mem_cons_self c q)
    have hq' : ∀ x ∈ q, x ≠ '%' ∧ x ≠ '_' := fun x hx => hq x (List.mem_cons_of_mem c hx)
    cases t with
    | nil =>
      rw [List.cons_append, likeMatch_lit_nil c _ hc.1 hc.2]
      simp
    | cons d t' =>
      rw [List.cons_append, likeMatch_lit_cons c _ hc.1 hc.2, List.cons_prefix_cons]
      rw [Bool.and_eq_true, decide_eq_true_eq, ih hq' t']

/-- The pattern percent-q-percent matches s exactly when the wildcard-free term
    q occurs in s as a contiguous substring. -/
theorem likePattern_iff (q s : Str) (hq : ∀ x ∈ q, x ≠ '%' ∧ x ≠ '_') :
    likeMatch (likePattern q) s = true ↔ q <:+: s := by
  rw [likePattern, likeMatch_pct, suffAny_iff]
  constructor
  · rintro ⟨t, ht, hf⟩
    exact List.infix_iff_prefix_suffix.mpr ⟨t, (likeMatch_lit_append q hq t).mp hf, ht⟩
  · intro h
    rcases List.infix_iff_prefix_suffix.mp h with ⟨t, hp, hs⟩
    exact ⟨t, hs, (likeMatch_lit_append q hq t).mpr hp⟩

theorem strLe_total (x : Str) : ∀ y, strLe x y = true ∨ strLe y x = true := by
  induction x with
  | nil =>
    intro y
    exact Or.inl rfl
  | cons a x ih =>
    intro y
    cases y with
    | nil => exact Or.inr rfl
    | cons b y' =>
      by_cases hab : a = b
      · subst hab
        rcases ih y' with h | h
        · left
          rw [strLe, if_pos rfl]
          exact h
        · right
          rw [strLe, if_pos rfl]
          exact h
      · have hba : ¬ b = a := fun he => hab he.symm
        rcases lt_or_gt_of_ne hab with hlt | hgt
        · left
          rw [strLe, if_neg hab]
          exact decide_eq_true hlt
        · right
          rw [strLe, if_neg hba]
          exact decide_eq_true hgt

theorem strLe_trans : ∀ x y z : Str, strLe x y = true → strLe y z = true →
    strLe x z = true := by
  intro x
  induction x with
  | nil =>
    intro y z _ _
    rfl
  | cons a x ih =>
    intro y z h1 h2
    cases y with
    | nil =>
      rw [strLe] at h1
      exact Bool.noConfusion h1
    | cons b y' =>
      cases z with
      | nil =>
        rw [strLe] at h2
        exact Bool.noConfusion h2
      | cons c z' =>
        rw [strLe] at h1 h2 ⊢
        by_cases hab : a = b
        · subst hab
          rw [if_pos rfl] at h1
          by_cases hac : a = c
          · subst hac
            rw [if_pos rfl] at h2 ⊢
            exact ih y' z' h1 h2
          · rw [if_neg hac] at h2 ⊢
            exact h2
        · rw [if_neg hab] at h1
          have hab' : a < b := of_decide_eq_true h1
          by_cases hbc : b = c
          · subst hbc
            rw [if_neg hab]
            exact h1
          · rw [if_neg hbc] at h2
            have hbc' : b < c := of_decide_eq_true h2
            have hac : a < c := lt_trans hab' hbc'
            rw [if_neg (ne_of_lt hac)]
            exact decide_eq_true hac

theorem updatedDesc_total (r1 r2 : Row) :
    updatedDesc r1 r2 = true ∨ updatedDesc r2 r1 = true :=
  (strLe_total r2.updated_at r1.updated_at).imp (fun h => h) (fun h => h)

theorem updatedDesc_trans (r1 r2 r3 : Row) (h1 : updatedDesc r1 r2 = true)
    (h2 : updatedDesc r2 r3 = true) : updatedDesc r1 r3 = true :=
  strLe_trans r3.updated_at r2.updated_at r1.updated_at h2 h1

theorem orderInsert_perm (le : Row → Row → Bool) (a : Row) (l : List Row) :
    List.Perm (orderInsert le a l) (a :: l) := by
  induction l with
  | nil => exact List.Perm.refl _
  | cons b l ih =>
    by_cases h : le a b
    · rw [orderInsert, if_pos h]
    · rw [orderInsert, if_neg h]
      exact (List.Perm.cons b ih).trans (List.Perm.swap a b l)

theorem orderSort_perm (le : Row → Row → Bool) (l : List Row) :
    List.Perm (orderSort le l) l := by
  induction l with
  | nil => exact List.Perm.refl _
  | cons a l ih =>
    exact (orderInsert_perm le a (orderSort le l)).trans (List.Perm.cons a ih)

theorem pairwise_orderInsert (le : Row → Row → Bool)
    (htot : ∀ x y, le x y = true ∨ le y x = true)
    (htrans : ∀ x y z, le x y = true → le y z = true → le x z = true)
    (a : Row) (l : List Row) (h : l.Pairwise (fun x y => le x y = true)) :
    (orderInsert le a l).Pairwise (fun x y => le x y = true) := by
  induction l with
  | nil => exact List.pairwise_singleton _ _
  | cons b l ih =>
    rcases List.pairwise_cons.mp h with ⟨hb, hl⟩
    by_cases hab : le a b = true
    · rw [orderInsert, if_pos hab]
      refine List.pairwise_cons.mpr ⟨?_, h⟩
      intro y hy
      rcases List.mem_cons.mp hy with rfl | hy
      · exact hab
      · exact htrans a b y hab (hb y hy)
    · rw [orderInsert, if_neg hab]
      refine List.pairwise_cons.mpr ⟨?_, ih hl⟩
      intro y hy
      have hy' : y ∈ a :: l := (orderInsert_perm le a l).mem_iff.mp hy
      rcases List.mem_cons.mp hy' with rfl | hy'
      · rcases htot y b with h' | h'
        · exact absurd h' hab
        · exact h'
      · exact hb y hy'

theorem pairwise_orderSort (le : Row → Row → Bool)
    (htot : ∀ x y, le x y = true ∨ le y x = true)
    (htrans : ∀ x y z, le x y = true → le y z = true → le x z = true)
    (l : List Row) : (orderSort le l).Pairwise (fun x y => le x y = true) := by
  induction l with
  | nil => exact List.Pairwise.nil
  | cons a l ih => exact pairwise_orderInsert le htot htrans a _ ih

/- ------------------------------------------------------------------ -/
/- Structure of the built filters.                                     -/
/- ------------------------------------------------------------------ -/

theorem build_filters_conds (q0 p0 cm0 cs0 col0 : Str) :
    (build_filters_from_values q0 p0 cm0 cs0 col0).conds =
      (if pyStrip q0 = [] then []
       else [Cond.freeText (likePattern (pyStrip q0))]) ++
      (if pyStrip p0 = [] then [] else [Cond.eqPlatform (pyStrip p0)]) ++
      (if pyStrip cm0 = [] then [] else [Cond.eqCatMain (pyStrip cm0)]) ++
      (if pyStrip cs0 = [] then [] else [Cond.eqCatSub (pyStrip cs0)]) := rfl

theorem where_ne_nil : str "WHERE " ≠ [] := by
  show 'W' :: str "HERE " ≠ []
  simp

theorem build_filters_where_clause (q0 p0 cm0 cs0 col0 : Str) :
    (build_filters_from_values q0 p0 cm0 cs0 col0).where_clause =
      (if (build_filters_from_values q0 p0 cm0 cs0 col0).conds = [] then []
       else str "WHERE " ++
         joinAnd ((build_filters_from_values q0 p0 cm0 cs0 col0).conds.map condSql)) := rfl

theorem where_clause_empty_iff (q0 p0 cm0 cs0 col0 : Str) :
    (build_filters_from_values q0 p0 cm0 cs0 col0).where_clause = [] ↔
      (pyStrip q0 = [] ∧ pyStrip p0 = [] ∧ pyStrip cm0 = [] ∧ pyStrip cs0 = []) := by
  rw [build_filters_where_clause, build_filters_conds]
  by_cases h1 : pyStrip q0 = [] <;> by_cases h2 : pyStrip p0 = [] <;>
    by_cases h3 : pyStrip cm0 = [] <;> by_cases h4 : pyStrip cs0 = [] <;>
    simp [h1, h2, h3, h4, where_ne_nil]

theorem rowMatches_iff (q0 p0 cm0 cs0 col0 : Str) (r : Row) :
    rowMatches (build_filters_from_values q0 p0 cm0 cs0 col0) r = true ↔
      ((pyStrip q0 = [] ∨
          ∃ f ∈ searchFields r, likeMatch (likePattern (pyStrip q0)) f = true) ∧
       (pyStrip p0 = [] ∨ r.platform = pyStrip p0) ∧
       (pyStrip cm0 = [] ∨ r.category_main = pyStrip cm0) ∧
       (pyStrip cs0 = [] ∨ r.category_sub = pyStrip cs0)) := by
  rw [rowMatches, build_filters_conds]
  by_cases h1 : pyStrip q0 = [] <;> by_cases h2 : pyStrip p0 = [] <;>
    by_cases h3 : pyStrip cm0 = [] <;> by_cases h4 : pyStrip cs0 = [] <;>
    simp [h1, h2, h3, h4, evalCond, List.any_eq_true]

theorem rowMatches_of_empty (q0 p0 cm0 cs0 col0 : Str)
    (hq : pyStrip q0 = []) (hp : pyStrip p0 = []) (hcm : pyStrip cm0 = [])
    (hcs : pyStrip cs0 = []) (r : Row) :
    rowMatches (build_filters_from_values q0 p0 cm0 cs0 col0) r = true := by
  rw [rowMatches, build_filters_conds, hq, hp, hcm, hcs]
  rfl

/-- Claim C1 counterexample: a columns request that names no known column
    resolves to the empty list, not to the full list of known columns as the
    claim states for requests yielding an empty subset of valid names. -/
theorem build_filters_columns_counterexample :
    (build_filters_from_values [] [] [] [] (str "bogus")).selected_columns = [] ∧
    (build_filters_from_values [] [] [] [] (str "bogus")).all_columns ≠ [] :=
  ⟨by decide, by decide⟩

/-- Claim C1 (amended): the resolved output columns default to every known
    column exactly when the stripped columns request is blank; a non-blank
    request resolves to the requested names that are known columns, in request
    order — possibly the empty list, which is not replaced by the default. -/
theorem build_filters_selected_columns_amended (q0 p0 cm0 cs0 col0 : Str) :
    (pyStrip col0 = [] →
      (build_filters_from_values q0 p0 cm0 cs0 col0).selected_columns = allColumns) ∧
    (pyStrip col0 ≠ [] →
      (build_filters_from_values q0 p0 cm0 cs0 col0).selected_columns =
        (pySplitAll (str ",") (pyStrip col0)).filter (fun col => col ∈ allColumns)) := by
  constructor <;> intro h <;> simp [build_filters_from_values, h]

theorem build_filters_selected_columns_amended_witness :
    (build_filters_from_values [] [] [] [] []).selected_columns = allColumns ∧
    (build_filters_from_values [] [] [] [] (str "platform,notes,bogus")).selected_columns =
      [str "platform", str "notes"] := by
  constructor
  · exact (build_filters_selected_columns_amended [] [] [] [] []).1 (by decide)
  · have h :=
      (build_filters_selected_columns_amended [] [] [] [] (str "platform,notes,bogus")).2
        (by decide)
    rw [h]
    decide

/-- Claim C8 counterexample: the free-text term percent matches the row all of
    whose searched fields are the letter x (the LIKE wildcard matches
    anything), yet percent is a substring of none of the twelve fields — so
    matching is not equivalent to substring containment for terms holding LIKE
    wildcard characters. -/
theorem filter_like_wildcard_counterexample :
    rowMatches (build_filters_from_values (str "%") [] [] [] []) r0 = true ∧
    ∀ f ∈ searchFields r0, ¬ (str "%" <:+: f) := by
  constructor
  · decide
  · intro f hf
    have hfx : f = str "x" := by
      simp only [searchFields, r0, rowOf, List.mem_cons, List.not_mem_nil, or_false,
        or_self] at hf
      exact hf
    subst hfx
    intro hc
    exact absurd ((pyIn_iff (str "%") (str "x")).mpr hc) (by decide)

/-- Claim C8 (amended): a record matches the built conjunction exactly when the
    LIKE pattern of the free-text term matches at least one of the twelve
    searched fields and every supplied exact-match value agrees; for terms free
    of LIKE wildcard characters the LIKE pattern matches a field exactly when
    the term is a substring of it; and with all parameters empty the query
    returns every record, ordered by last-update timestamp descending. -/
theorem filter_semantics_amended :
    (∀ q0 p0 cm0 cs0 col0 (r : Row),
      rowMatches (build_filters_from_values q0 p0 cm0 cs0 col0) r = true ↔
        ((pyStrip q0 = [] ∨
            ∃ f ∈ searchFields r, likeMatch (likePattern (pyStrip q0)) f = true) ∧
         (pyStrip p0 = [] ∨ r.platform = pyStrip p0) ∧
         (pyStrip cm0 = [] ∨ r.category_main = pyStrip cm0) ∧
         (pyStrip cs0 = [] ∨ r.category_sub = pyStrip cs0))) ∧
    (∀ q s : Str, (∀ x ∈ q, x ≠ '%' ∧ x ≠ '_') →
      (likeMatch (likePattern q) s = true ↔ q <:+: s)) ∧
    (∀ col0 (db : List Row),
      List.Perm (query_influencers (build_filters_from_values [] [] [] [] col0) db) db ∧
      (query_influencers (build_filters_from_values [] [] [] [] col0) db).Pairwise
        (fun a b => updatedDesc a b = true)) := by
  refine ⟨rowMatches_iff, fun q s hq => likePattern_iff q s hq, ?_⟩
  intro col0 db
  have hfil : db.filter (rowMatches (build_filters_from_values [] [] [] [] col0)) = db :=
    List.filter_eq_self.mpr (fun r _ => rowMatches_of_empty [] [] [] [] col0 rfl rfl rfl rfl r)
  constructor
  · rw [query_influencers, hfil]
    exact orderSort_perm updatedDesc db
  · rw [query_influencers, hfil]
    exact pairwise_orderSort updatedDesc updatedDesc_total updatedDesc_trans db

theorem filter_semantics_amended_witness :
    likeMatch (likePattern (str "ab")) (str "xaby") = true :=
  (filter_semantics_amended.2.1 (str "ab") (str "xaby") (by decide)).mpr
    ⟨str "x", str "y", rfl⟩

/-- Claim C4: a bulk DM-template application with a non-blank (stripped)
    template and a non-empty filter reports the count of matching rows, keeps
    the table length, writes the template verbatim into the dm_message column
    of every matching row while keeping its other columns, and leaves every
    non-matching row unchanged. -/
theorem apply_dm_template_filtered_spec
    (db : List Row) (t q0 p0 cm0 cs0 ca : Str)
    (hstrip : pyStrip t = t) (htne : t ≠ [])
    (hfilter : (build_filters_from_values q0 p0 cm0 cs0 []).where_clause ≠ []) :
    (apply_dm_template t q0 p0 cm0 cs0 ca db).2 =
      some (db.filter (rowMatches (build_filters_from_values q0 p0 cm0 cs0 []))).length ∧
    (apply_dm_template t q0 p0 cm0 cs0 ca db).1.length = db.length ∧
    ∀ i (r : Row), db.get? i = some r →
      (rowMatches (build_filters_from_values q0 p0 cm0 cs0 []) r = true →
        (apply_dm_template t q0 p0 cm0 cs0 ca db).1.get? i =
          some { r with dm_message := t }) ∧
      (rowMatches (build_filters_from_values q0 p0 cm0 cs0 []) r = false →
        (apply_dm_template t q0 p0 cm0 cs0 ca db).1.get? i = some r) := by
  have hres : apply_dm_template t q0 p0 cm0 cs0 ca db =
      (db.map (fun r =>
        if rowMatches (build_filters_from_values q0 p0 cm0 cs0 []) r = true then
          { r with dm_message := t } else r),
       some (db.filter (rowMatches (build_filters_from_values q0 p0 cm0 cs0 []))).length) := by
    simp only [apply_dm_template]
    rw [hstrip, if_neg htne, if_neg (fun hc => hfilter hc.1)]
  refine ⟨by rw [hres], by rw [hres]; simp, ?_⟩
  intro i r hr
  constructor
  · intro hm
    rw [hres]
    show (db.map _).get? i = _
    rw [List.get?_map, hr]
    simp [hm]
  · intro hm
    rw [hres]
    show (db.map _).get? i = _
    rw [List.get?_map, hr]
    simp [hm]

theorem apply_dm_template_filtered_spec_witness :
    (apply_dm_template (str "Hello friend") [] (str "YouTube") [] [] [] [rYT, rIG]).2 =
      some 1 ∧
    (apply_dm_template (str "Hello friend") [] (str "YouTube") [] [] [] [rYT, rIG]).1.get? 0 =
      some { rYT with dm_message := str "Hello friend" } ∧
    (apply_dm_template (str "Hello friend") [] (str "YouTube") [] [] [] [rYT, rIG]).1.get? 1 =
      some rIG := by
  have h := apply_dm_template_filtered_spec [rYT, rIG] (str "Hello friend") [] (str "YouTube")
    [] [] [] (by decide) (by decide) (by decide)
  refine ⟨?_, ?_, ?_⟩
  · rw [h.1]
    decide
  · exact (h.2.2 0 rYT rfl).1 (by decide)
  · exact (h.2.2 1 rIG rfl).2 (by decide)

/-- Claim C5: with all four filter parameters blank the bulk DM application is
    rejected, leaving every record unchanged, unless the confirm_all flag is
    the string yes; with the flag set (and a non-blank template) it updates the
    dm_message of every record in the table and reports the full row count. -/
theorem apply_dm_template_confirm_all_spec
    (db : List Row) (t ca q0 p0 cm0 cs0 : Str)
    (hq : pyStrip q0 = []) (hp : pyStrip p0 = []) (hcm : pyStrip cm0 = [])
    (hcs : pyStrip cs0 = []) :
    (ca ≠ str "yes" → apply_dm_template t q0 p0 cm0 cs0 ca db = (db, none)) ∧
    (ca = str "yes" → pyStrip t ≠ [] →
      apply_dm_template t q0 p0 cm0 cs0 ca db =
        (db.map (fun r => { r with dm_message := pyStrip t }), some db.length)) := by
  have hwc : (build_filters_from_values q0 p0 cm0 cs0 []).where_clause = [] :=
    (where_clause_empty_iff q0 p0 cm0 cs0 []).mpr ⟨hq, hp, hcm, hcs⟩
  have hmatch : ∀ r, rowMatches (build_filters_from_values q0 p0 cm0 cs0 []) r = true :=
    rowMatches_of_empty q0 p0 cm0 cs0 [] hq hp hcm hcs
  constructor
  · intro hca
    by_cases ht : pyStrip t = []
    · simp only [apply_dm_template]
      rw [if_pos ht]
    · simp only [apply_dm_template]
      rw [if_neg ht, if_pos ⟨hwc, hca⟩]
  · intro hca ht
    simp only [apply_dm_template]
    rw [if_neg ht, if_neg (fun hc => hc.2 hca)]
    have hmap : db.map (fun r =>
        if rowMatches (build_filters_from_values q0 p0 cm0 cs0 []) r = true then
          { r with dm_message := pyStrip t } else r) =
        db.map (fun r => { r with dm_message := pyStrip t }) :=
      List.map_congr_left (fun r _ => by rw [hmatch r]; simp)
    have hfil : db.filter (rowMatches (build_filters_from_values q0 p0 cm0 cs0 [])) = db :=
      List.filter_eq_self.mpr (fun r _ => hmatch r)
    rw [hmap, hfil]

theorem apply_dm_template_confirm_all_spec_witness :
    apply_dm_template (str "Hi") [] [] [] [] [] [rYT] = ([rYT], none) ∧
    apply_dm_template (str "Hi") [] [] [] [] (str "yes") [rYT] =
      ([{ rYT with dm_message := str "Hi" }], some 1) := by
  constructor
  · exact (apply_dm_template_confirm_all_spec [rYT] (str "Hi") [] [] [] [] []
      (by decide) (by decide) (by decide) (by decide)).1 (by decide)
  · have h := (apply_dm_template_confirm_all_spec [rYT] (str "Hi") (str "yes") [] [] [] []
      (by decide) (by decide) (by decide) (by decide)).2 rfl (by decide)
    exact h.trans (by decide)

/- ------------------------------------------------------------------ -/
/- The import pipeline.                                                -/
/- ------------------------------------------------------------------ -/

theorem exc_bind_ok {α β : Type} (a : α) (f : α → Except PyErr β) :
    (Except.ok a : Except PyErr α) >>= f = f a := rfl

theorem exc_bind_error {α β : Type} (e : PyErr) (f : α → Except PyErr β) :
    (Except.error e : Except PyErr α) >>= f = Except.error e := rfl

theorem exc_map_ok {α β : Type} (a : α) (f : α → β) :
    (Except.ok a : Except PyErr α).map f = Except.ok (f a) := rfl

theorem exc_map_error {α β : Type} (e : PyErr) (f : α → β) :
    (Except.error e : Except PyErr α).map f = Except.error e := rfl

theorem exc_pure {α : Type} (a : α) : (pure a : Except PyErr α) = Except.ok a := rfl

/-- The only influence of the insertion timestamp on a processed row is in the
    two timestamp columns: the per-row outcome shape (skip, insert, raise) is
    timestamp-independent. -/
theorem import_row_now (oracle : Str → Str) (now now2 : Str) (headersN : List Str)
    (cells : List Cell) :
    import_row oracle now headersN cells =
      (import_row oracle now2 headersN cells).map
        (Option.map (fun r => { r with created_at := now, updated_at := now })) := by
  simp only [import_row]
  cases h1 : coerce_int_cell (rowGet headersN cells (str "followers_num")) with
  | error e => simp [h1, exc_bind_error, exc_map_error]
  | ok v1 =>
    cases h2 : coerce_int_cell (rowGet headersN cells (str "target_2030_score")) with
    | error e => simp [h1, h2, exc_bind_ok, exc_bind_error, exc_map_error]
    | ok v2 =>
      by_cases h3 : clean_text (rowGet headersN cells (str "instagram_username")) = [] ∧
          clean_text (rowGet headersN cells (str "profile_url")) ≠ []
      · cases h4 : igExtract (clean_text (rowGet headersN cells (str "profile_url"))) with
        | error e =>
          simp [h1, h2, h3, h4, exc_bind_ok, exc_bind_error, exc_map_error]
        | ok ig =>
          by_cases h5 : clean_text (rowGet headersN cells (str "account_name")) = [] <;>
            simp [h1, h2, h3, h4, h5, exc_bind_ok, exc_map_ok, exc_pure]
      · by_cases h5 : clean_text (rowGet headersN cells (str "account_name")) = [] <;>
          simp [h1, h2, h3, h5, exc_bind_ok, exc_map_ok, exc_pure]

theorem import_loop_append (oracle : Str → Str) (now : Str) (headersN : List Str) :
    ∀ (rows : List (List Cell)) (db : List Row) (n : Nat) (db' : List Row) (m : Nat),
      import_loop oracle now headersN rows db n = Except.ok (db', m) →
      ∃ ins, db' = db ++ ins ∧ m = n + ins.length := by
  intro rows
  induction rows with
  | nil =>
    intro db n db' m h
    simp only [import_loop] at h
    injection h with h
    cases h
    exact ⟨[], by simp, by simp⟩
  | cons cells rest ih =>
    intro db n db' m h
    cases hr : import_row oracle now headersN cells with
    | error e =>
      simp only [import_loop, hr] at h
      exact Except.noConfusion h
    | ok o =>
      cases o with
      | none =>
        simp only [import_loop, hr] at h
        exact ih db n db' m h
      | some r =>
        simp only [import_loop, hr] at h
        rcases ih (db ++ [r]) (n + 1) db' m h with ⟨ins, hins, hm⟩
        refine ⟨r :: ins, ?_, ?_⟩
        · rw [hins]
          simp
        · rw [hm]
          simp
          omega

/-- The two runs of the loop over the same rows, from different table states
    and with different timestamps, either both raise or both succeed with the
    same inserted-row count. -/
theorem import_loop_now (oracle : Str → Str) (now now2 : Str) (headersN : List Str) :
    ∀ (rows : List (List Cell)) (db db2 : List Row) (n : Nat),
      (∃ e e2, import_loop oracle now headersN rows db n = Except.error e ∧
        import_loop oracle now2 headersN rows db2 n = Except.error e2) ∨
      (∃ db' db2' m, import_loop oracle now headersN rows db n = Except.ok (db', m) ∧
        import_loop oracle now2 headersN rows db2 n = Except.ok (db2', m)) := by
  intro rows
  induction rows with
  | nil =>
    intro db db2 n
    exact Or.inr ⟨db, db2, n, rfl, rfl⟩
  | cons cells rest ih =>
    intro db db2 n
    have hrow := import_row_now oracle now now2 headersN cells
    cases h2 : import_row oracle now2 headersN cells with
    | error e =>
      have h1 : import_row oracle now headersN cells = Except.error e := by
        rw [hrow, h2]
        rfl
      exact Or.inl ⟨e, e, by simp [import_loop, h1], by simp [import_loop, h2]⟩
    | ok o =>
      cases o with
      | none =>
        have h1 : import_row oracle now headersN cells = Except.ok none := by
          rw [hrow, h2]
          rfl
        rcases ih db db2 n with ⟨e, e2, ha, hb⟩ | ⟨db', db2', m, ha, hb⟩
        · exact Or.inl ⟨e, e2, by simp [import_loop, h1, ha], by simp [import_loop, h2, hb]⟩
        · exact Or.inr ⟨db', db2', m,
            by simp [import_loop, h1, ha], by simp [import_loop, h2, hb]⟩
      | some r =>
        have h1 : import_row oracle now headersN cells =
            Except.ok (some { r with created_at := now, updated_at := now }) := by
          rw [hrow, h2]
          rfl
        rcases ih (db ++ [{ r with created_at := now, updated_at := now }]) (db2 ++ [r])
            (n + 1) with ⟨e, e2, ha, hb⟩ | ⟨db', db2', m, ha, hb⟩
        · exact Or.inl ⟨e, e2, by simp [import_loop, h1, ha], by simp [import_loop, h2, hb]⟩
        · exact Or.inr ⟨db', db2', m,
            by simp [import_loop, h1, ha], by simp [import_loop, h2, hb]⟩

/-- Claim C6: spreadsheet import is additive-only — every pre-existing record
    survives an import unchanged, in place, with only new rows appended and the
    reported count equal to the number of appended rows; and importing the same
    spreadsheet twice in succession (with arbitrary timestamps) inserts the
    same number of rows each time, so the final row count grows by twice the
    per-run insert count. -/
theorem import_excel_additive_spec (oracle : Str → Str) (now now2 : Str) (sheet : Sheet)
    (db : List Row) :
    ((∃ ins, (import_excel oracle now sheet db).1 = db ++ ins ∧
        (import_excel oracle now sheet db).2 = some ins.length) ∨
      import_excel oracle now sheet db = (db, none)) ∧
    (import_excel oracle now2 sheet (import_excel oracle now sheet db).1).2 =
      (import_excel oracle now sheet db).2 ∧
    (import_excel oracle now2 sheet (import_excel oracle now sheet db).1).1.length =
      db.length + 2 * ((import_excel oracle now sheet db).2.getD 0) := by
  by_cases hcol : str "account_name" ∈ sheet.headers.map normalize_column
  · cases hloop1 : import_loop oracle now (sheet.headers.map normalize_column)
        (sheet.rows.filter (fun cells =>
          (rowGet (sheet.headers.map normalize_column) cells (str "account_name")).isSome))
        db 0 with
    | error e =>
      have hres1 : import_excel oracle now sheet db = (db, none) := by
        simp [import_excel, hcol, hloop1]
      rcases import_loop_now oracle now now2 (sheet.headers.map normalize_column)
          (sheet.rows.filter (fun cells =>
            (rowGet (sheet.headers.map normalize_column) cells (str "account_name")).isSome))
          db db 0 with ⟨e1, e2, ha, hb⟩ | ⟨d1, d2, m, ha, hb⟩
      · have hres2 : import_excel oracle now2 sheet db = (db, none) := by
          simp [import_excel, hcol, hb]
        rw [hres1]
        exact ⟨Or.inr rfl, by rw [hres2], by rw [hres2]; simp⟩
      · rw [hloop1] at ha
        exact absurd ha (by simp)
    | ok p =>
      obtain ⟨db1, m⟩ := p
      have hres1 : import_excel oracle now sheet db = (db1, some m) := by
        simp [import_excel, hcol, hloop1]
      obtain ⟨ins, hins, hm⟩ := import_loop_append oracle now
        (sheet.headers.map normalize_column)
        (sheet.rows.filter (fun cells =>
          (rowGet (sheet.headers.map normalize_column) cells (str "account_name")).isSome))
        db 0 db1 m hloop1
      rcases import_loop_now oracle now now2 (sheet.headers.map normalize_column)
          (sheet.rows.filter (fun cells =>
            (rowGet (sheet.headers.map normalize_column) cells (str "account_name")).isSome))
          db db1 0 with ⟨e1, e2, ha, hb⟩ | ⟨d1, d2, m2, ha, hb⟩
      · rw [hloop1] at ha
        exact absurd ha (by simp)
      · rw [hloop1] at ha
        injection ha with ha
        rw [Prod.mk.injEq] at ha
        obtain ⟨h5, h6⟩ := ha
        subst h5
        subst h6
        have hres2 : import_excel oracle now2 sheet db1 = (d2, some m) := by
          simp [import_excel, hcol, hb]
        obtain ⟨ins2, hins2, hm2⟩ := import_loop_append oracle now2
          (sheet.headers.map normalize_column)
          (sheet.rows.filter (fun cells =>
            (rowGet (sheet.headers.map normalize_column) cells (str "account_name")).isSome))
          db1 0 d2 m hb
        rw [hres1]
        refine ⟨Or.inl ⟨ins, hins, by rw [hm]; simp⟩, by rw [hres2], ?_⟩
        rw [hres2]
        simp only [Option.getD_some]
        rw [hins2, hins]
        simp [List.length_append]
        omega
  · have hres : ∀ (nw : Str) (d : List Row), import_excel oracle nw sheet d = (d, none) := by
      intro nw d
      simp [import_excel, hcol]
    rw [hres now db]
    exact ⟨Or.inr rfl, by rw [hres now2 db], by rw [hres now2 db]; simp⟩

end App
